import Mathlib

/-!
Verification of the glue runtime's registration/dispatch core.

The development shallowly embeds the process-wide registry, the one-shot
init state machine, the logging context and the console-argument
serializer of the runtime.  JavaScript Maps are modelled as association
lists in insertion order (as JS Map iteration is specified to be), the
mutable module-level variables are gathered into an explicit record of
runtime state, and functions that can throw return the (possibly
partially mutated) state together with an optional error value, since a
thrown exception in JS does not roll back mutations already performed.
-/

set_option autoImplicit false

namespace GlueRuntime

/-! ## Association lists modelling JS Map (insertion order preserved) -/

/-- Lookup in an association list; mirrors JS Map.prototype.get. -/
def mapGet {β : Type} : List (String × β) → String → Option β
  | [], _ => none
  | (k, v) :: rest, key => if k = key then some v else mapGet rest key

/-- Update or append in an association list; mirrors JS Map.prototype.set,
which updates an existing key in place (keeping its position) and appends
a new key at the end of the iteration order. -/
def mapSet {β : Type} : List (String × β) → String → β → List (String × β)
  | [], key, v => [(key, v)]
  | (k, w) :: rest, key, v =>
    if k = key then (key, v) :: rest else (k, w) :: mapSet rest key v

/-! ## Values and the console-argument serializer (src/logging/serialization.ts)

JS values are embedded as trees of primitives plus references into an
explicit heap of containers, so that cyclic structures (a Map containing
itself) are representable and reference identity, which the serializer's
cycle-detection stack relies on, is heap-address identity. -/

/-- Embedded JS value.  Containers (Set, Map, plain object) live in a heap
and are referred to by address, so shared/cyclic structure is faithful. -/
inductive JsValue where
  | jsNull
  | undef
  | num (n : Int)
  | str (s : String)
  | boolean (b : Bool)
  | bigint (n : Int)
  | func (name : String)
  | err (msg : String) (trace : Option String)
  | sym (description : String)
  | weakSet
  | weakMap
  | ref (addr : Nat)
  deriving DecidableEq

/-- Heap container: a Set, a Map or a plain object, with contents in
insertion/property order. -/
inductive Container where
  | set (elems : List JsValue)
  | jsMap (entries : List (JsValue × JsValue))
  | obj (fields : List (String × JsValue))
  deriving DecidableEq

/-- One JSON string-escape step, as JSON.stringify performs on strings. -/
def jsonEscapeChar (c : Char) : String :=
  if c = '"' then "\\\""
  else if c = '\\' then "\\\\"
  else if c = '\n' then "\\n"
  else if c = '\r' then "\\r"
  else if c = '\t' then "\\t"
  else if c = Char.ofNat 8 then "\\b"
  else if c = Char.ofNat 12 then "\\f"
  else if c.toNat < 32 then
    "\\u00" ++ String.singleton (Nat.digitChar (c.toNat / 16)) ++
      String.singleton (Nat.digitChar (c.toNat % 16))
  else String.singleton c

/-- JSON quoting of a string, as JSON.stringify renders string values. -/
def jsonQuote (s : String) : String :=
  "\"" ++ String.join (s.toList.map jsonEscapeChar) ++ "\""

/-- JSON.stringify over the embedding.  The result distinguishes a thrown
TypeError (outer none, raised on circular structures and on bigints) from
a value that JSON omits entirely, i.e. undefined, functions and symbols
(inner none).  seen is JSON.stringify's own cycle-tracking set, which is
independent of the serializer's stack.  Fuel is an artifact of the
embedding; every call below supplies enough for its heap. -/
def jsonStringify (h : List Container) : Nat → JsValue → List Nat → Option (Option String)
  | _, .jsNull, _ => some (some "null")
  | _, .undef, _ => some none
  | _, .num n, _ => some (some (toString n))
  | _, .str s, _ => some (some (jsonQuote s))
  | _, .boolean b, _ => some (some (cond b "true" "false"))
  | _, .bigint _, _ => none
  | _, .func _, _ => some none
  | _, .sym _, _ => some none
  | _, .err _ _, _ => some (some "\x7b\x7d")
  | _, .weakSet, _ => some (some "\x7b\x7d")
  | _, .weakMap, _ => some (some "\x7b\x7d")
  | 0, .ref _, _ => none
  | fuel + 1, .ref addr, seen =>
    if addr ∈ seen then none
    else
      match h[addr]? with
      | none => some (some "\x7b\x7d")
      | some (.set _) => some (some "\x7b\x7d")
      | some (.jsMap _) => some (some "\x7b\x7d")
      | some (.obj fields) =>
        let parts := fields.map fun kv => (kv.1, jsonStringify h fuel kv.2 (addr :: seen))
        if parts.any (fun p => p.2.isNone) then none
        else
          some (some ("\x7b" ++ String.intercalate ","
            (parts.filterMap fun p =>
              match p.2 with
              | some (some s) => some (jsonQuote p.1 ++ ":" ++ s)
              | _ => none) ++ "\x7d"))

/-- Worker for serializeValue with explicit fuel and the shared
cycle-detection stack of container addresses currently being serialized.
Mirrors serializeValue in src/logging/serialization.ts branch by branch:
String(value) forms first, then bigint, function, Error, then the
stack-based circular check, then Set/Map recursion or the JSON fallback,
where a throwing JSON.stringify yields the unserializable marker. -/
def serializeValueFuel (h : List Container) : Nat → JsValue → List Nat → String
  | _, .jsNull, _ => "null"
  | _, .undef, _ => "undefined"
  | _, .num n, _ => toString n
  | _, .sym d, _ => "Symbol(" ++ d ++ ")"
  | _, .weakSet, _ => "[object WeakSet]"
  | _, .weakMap, _ => "[object WeakMap]"
  | _, .bigint n, _ => toString n ++ "n"
  | _, .func name, _ =>
    if name = "" then "[Function (anonymous)]" else "[Function: " ++ name ++ "]"
  | _, .err msg trace, _ => trace.getD ("Error: " ++ msg)
  | fuel, .str s, _ =>
    match jsonStringify h fuel (.str s) [] with
    | some (some t) => t
    | some none => "undefined"
    | none => "[Unserializable value]"
  | fuel, .boolean b, _ =>
    match jsonStringify h fuel (.boolean b) [] with
    | some (some t) => t
    | some none => "undefined"
    | none => "[Unserializable value]"
  | 0, .ref _, _ => "[Unserializable value]"
  | fuel + 1, .ref addr, stack =>
    if addr ∈ stack then "[Circular reference]"
    else
      match h[addr]? with
      | none => "[Unserializable value]"
      | some (.set elems) =>
        "Set(" ++ toString elems.length ++ ") \x7b " ++
          String.intercalate ", "
            (elems.map fun x => serializeValueFuel h fuel x (addr :: stack)) ++ " \x7d"
      | some (.jsMap entries) =>
        "Map(" ++ toString entries.length ++ ") \x7b " ++
          String.intercalate ", "
            (entries.map fun kv =>
              serializeValueFuel h fuel kv.1 (addr :: stack) ++ " => " ++
                serializeValueFuel h fuel kv.2 (addr :: stack)) ++ " \x7d"
      | some (.obj _) =>
        match jsonStringify h fuel (.ref addr) [] with
        | some (some t) => t
        | some none => "undefined"
        | none => "[Unserializable value]"

/-- serializeValue entry point (fresh cycle stack).  The stack can only
hold distinct heap addresses, so heap size plus one is always enough fuel
for the recursion to run exactly as the source does. -/
def serializeValue (h : List Container) (v : JsValue) : String :=
  serializeValueFuel h (h.length + 1) v []

/-- Top-level plain strings pass through unquoted; everything else goes
through the full serializer (serializeValueAllowPlainStrings in source). -/
def serializeValueAllowPlainStrings (h : List Container) (v : JsValue) : String :=
  match v with
  | .str s => s
  | _ => serializeValue h v

/-- serializeConsoleArgumentsToString: arguments joined with a single
space, with the trailing newline the source version appends. -/
def serializeConsoleArgumentsToString (h : List Container) (args : List JsValue) : String :=
  String.intercalate " " (args.map (serializeValueAllowPlainStrings h)) ++ "\n"

/-! ## Logging context (src/logging.ts) -/

/-- Stream tag of a captured log entry. -/
inductive LogType where
  | stdout
  | stderr
  deriving DecidableEq

/-- A captured log entry, as in the Log interface of src/logging.ts. -/
structure Log where
  timestamp : Nat
  type : LogType
  text : String
  deriving DecidableEq

/-- The console methods patched by patchConsoleGlobal. -/
inductive ConsoleMethod where
  | log
  | error
  | warn
  | info
  | debug
  | table
  deriving DecidableEq

/-- One console emission performed inside a logging context: the method
called, the arguments (with the heap their container references live in)
and the millisecond timestamp Date.now() returned at that moment. -/
structure ConsoleEvent where
  timestamp : Nat
  method : ConsoleMethod
  heap : List Container
  args : List JsValue
  deriving DecidableEq

/-- The entry the patched console pushes for one emission: stderr only for
the error method, and text built from the serialized arguments plus the
newline appended in src/logging.ts. -/
def logOfConsoleEvent (e : ConsoleEvent) : Log :=
  { timestamp := e.timestamp,
    type := if e.method = ConsoleMethod.error then LogType.stderr else LogType.stdout,
    text := serializeConsoleArgumentsToString e.heap e.args ++ "\n" }

/-- A value thrown (or rejected) by the code run in a logging context,
with the heap its container references live in and the Date.now()
timestamp observed when the catch block logs it. -/
structure Thrown where
  timestamp : Nat
  heap : List Container
  value : JsValue
  deriving DecidableEq

/-- Denotation of one execution of the function passed to
runInLoggingContext: the console emissions it performed, in order, up to
the point where it either completed (thrown = none) or threw/rejected. -/
structure HandlerRun where
  emissions : List ConsoleEvent
  thrown : Option Thrown
  deriving DecidableEq

/-- Result of runInLoggingContext: the collected log entries and the
serialized error, if the wrapped function threw. -/
structure LoggingResult where
  logs : List Log
  error : Option String
  deriving DecidableEq

/-- runInLoggingContext (src/logging.ts lines 75-111): buffers every
emission of the wrapped execution; if the execution throws, the catch
block first logs the thrown value as a stderr entry (logger.error, which
appends its own newline to the serialized arguments) and then stores its
serialization, newline from the serializer included, as the in-band
error.  The function itself always returns a result; the exception never
propagates past it. -/
def runInLoggingContext (run : HandlerRun) : LoggingResult :=
  let captured := run.emissions.map logOfConsoleEvent
  match run.thrown with
  | none => { logs := captured, error := none }
  | some t =>
    { logs := captured ++
        [{ timestamp := t.timestamp,
           type := LogType.stderr,
           text := serializeConsoleArgumentsToString t.heap [t.value] ++ "\n" }],
      error := some (serializeConsoleArgumentsToString t.heap [t.value]) }

/-! ## Registry and init state machine (src/runtimeSupport.ts)

The module-level mutable variables eventListenersByType,
accountInjectionsByType, nextAutomaticLabel, hasScheduledInit, hasInited,
glueDeploymentId and glueAuthHeader are gathered into one state record.
Handler callbacks and configs are opaque to the registry, so their types
are parameters. -/

/-- A registered trigger entry: handler plus opaque config. -/
structure RegisteredEvent (Fn Cfg : Type) where
  fn : Fn
  config : Cfg
  deriving DecidableEq

/-- A registered account injection entry: opaque config only. -/
structure RegisteredAccountInjection (ICfg : Type) where
  config : ICfg
  deriving DecidableEq

/-- CommonTriggerOptions of src/runtimeSupport.ts: an optional label. -/
structure CommonTriggerOptions where
  label : Option String
  deriving DecidableEq

/-- CommonAccountInjectionOptions of src/runtimeSupport.ts. -/
structure CommonAccountInjectionOptions where
  label : Option String
  deriving DecidableEq

/-- The errors the registration path throws.  The source throws plain
Error objects; the constructors carry the distinguishing content of the
messages. -/
inductive RegError where
  | alreadyInitialized
  | duplicateLabel (label : String)
  deriving DecidableEq

/-- Process-wide mutable runtime state of src/runtimeSupport.ts. -/
structure RuntimeState (Fn Cfg ICfg : Type) where
  eventListenersByType : List (String × List (String × RegisteredEvent Fn Cfg))
  accountInjectionsByType : List (String × List (String × RegisteredAccountInjection ICfg))
  nextAutomaticLabel : Nat
  hasScheduledInit : Bool
  hasInited : Bool
  glueDeploymentId : Option String
  glueAuthHeader : Option String

/-- The state at process start: empty registries, counter 0, init not
scheduled, no captured dispatch context. -/
def initialState (Fn Cfg ICfg : Type) : RuntimeState Fn Cfg ICfg :=
  { eventListenersByType := []
    accountInjectionsByType := []
    nextAutomaticLabel := 0
    hasScheduledInit := false
    hasInited := false
    glueDeploymentId := none
    glueAuthHeader := none }

/-- scheduleInit: throws if initialization already happened, otherwise
records that the deferred init microtask is scheduled (idempotently). -/
def scheduleInit {Fn Cfg ICfg : Type} (s : RuntimeState Fn Cfg ICfg) :
    RuntimeState Fn Cfg ICfg × Option RegError :=
  if s.hasInited then (s, some RegError.alreadyInitialized)
  else ({ s with hasScheduledInit := true }, none)

/-- The scheduled microtask firing: it sets hasInited and then starts the
control-plane server.  Only the state transition is modelled here; the
server endpoints are modelled as the functions below. -/
def fireInit {Fn Cfg ICfg : Type} (s : RuntimeState Fn Cfg ICfg) : RuntimeState Fn Cfg ICfg :=
  { s with hasInited := true }

/-- The label-resolution expression shared by both registration
functions: the explicit label if present, else the stringified current
automatic counter. -/
def resolveLabel (explicitLabel : Option String) (counter : Nat) : String :=
  explicitLabel.getD (toString counter)

/-- The label carried by trigger options, as options?.label evaluates. -/
def triggerOptionsLabel (options : Option CommonTriggerOptions) : Option String :=
  options.bind fun o => o.label

/-- The label carried by account injection options. -/
def injectionOptionsLabel (options : Option CommonAccountInjectionOptions) : Option String :=
  options.bind fun o => o.label

/-- registerEventListener (src/runtimeSupport.ts lines 107-131).  Runs
scheduleInit first (failing there aborts the call), ensures the
per-type inner map exists, resolves the label (consuming the automatic
counter only when no explicit label is given), throws on a duplicate
label for the type, and otherwise stores the handler.  The returned
state reflects all mutations performed before a throw. -/
def registerEventListener {Fn Cfg ICfg : Type} (eventName : String) (callback : Fn)
    (config : Cfg) (options : Option CommonTriggerOptions) (s : RuntimeState Fn Cfg ICfg) :
    RuntimeState Fn Cfg ICfg × Option RegError :=
  match scheduleInit s with
  | (s0, some e) => (s0, some e)
  | (s0, none) =>
    let specificEventListeners := (mapGet s0.eventListenersByType eventName).getD []
    let s1 : RuntimeState Fn Cfg ICfg :=
      if (mapGet s0.eventListenersByType eventName).isSome then s0
      else { s0 with eventListenersByType := mapSet s0.eventListenersByType eventName [] }
    let explicitLabel := triggerOptionsLabel options
    let resolvedLabel := resolveLabel explicitLabel s1.nextAutomaticLabel
    let s2 : RuntimeState Fn Cfg ICfg :=
      if explicitLabel.isSome then s1
      else { s1 with nextAutomaticLabel := s1.nextAutomaticLabel + 1 }
    if (mapGet specificEventListeners resolvedLabel).isSome then
      (s2, some (RegError.duplicateLabel resolvedLabel))
    else
      let updatedInner := mapSet specificEventListeners resolvedLabel
        { fn := callback, config := config }
      ({ s2 with
          eventListenersByType := mapSet s2.eventListenersByType eventName updatedInner },
        none)

/-- The credential fetcher returned by registerAccountInjection: the
closure captures the injection type and the resolved label. -/
structure CredentialFetcher where
  type : String
  label : String
  deriving DecidableEq

/-- registerAccountInjection (src/runtimeSupport.ts lines 142-192).  Same
shape as registerEventListener on the separate account-injection
namespace, sharing the same automatic-label counter; on success it
returns the credential fetcher closure. -/
def registerAccountInjection {Fn Cfg ICfg : Type} (type : String) (config : ICfg)
    (options : Option CommonAccountInjectionOptions) (s : RuntimeState Fn Cfg ICfg) :
    RuntimeState Fn Cfg ICfg × Except RegError CredentialFetcher :=
  match scheduleInit s with
  | (s0, some e) => (s0, Except.error e)
  | (s0, none) =>
    let typeAccountInjections := (mapGet s0.accountInjectionsByType type).getD []
    let s1 : RuntimeState Fn Cfg ICfg :=
      if (mapGet s0.accountInjectionsByType type).isSome then s0
      else { s0 with accountInjectionsByType := mapSet s0.accountInjectionsByType type [] }
    let explicitLabel := injectionOptionsLabel options
    let resolvedLabel := resolveLabel explicitLabel s1.nextAutomaticLabel
    let s2 : RuntimeState Fn Cfg ICfg :=
      if explicitLabel.isSome then s1
      else { s1 with nextAutomaticLabel := s1.nextAutomaticLabel + 1 }
    if (mapGet typeAccountInjections resolvedLabel).isSome then
      (s2, Except.error (RegError.duplicateLabel resolvedLabel))
    else
      let updatedInner := mapSet typeAccountInjections resolvedLabel { config := config }
      ({ s2 with
          accountInjectionsByType := mapSet s2.accountInjectionsByType type updatedInner },
        Except.ok { type := type, label := resolvedLabel })

/-- JS truthiness of a string-or-undefined value: undefined and the empty
string are falsy. -/
def jsFalsy (v : Option String) : Bool :=
  match v with
  | none => true
  | some s => s = ""

/-- Outcome of one call to a credential fetcher's get(): either the
NotYetReadyError rejection, raised before any network activity, or the
outbound authenticated request to the credential authority, keyed by the
captured deployment id, the fetcher's type and label, and the captured
auth header. -/
inductive FetchOutcome where
  | notYetReady
  | request (deploymentId : String) (type : String) (label : String) (authHeader : String)
  deriving DecidableEq

/-- The body of the fetcher closure returned by registerAccountInjection
(src/runtimeSupport.ts lines 168-191): if either captured dispatch
context value is missing it throws the not-yet-ready error without
fetching; otherwise it issues the outbound request. -/
def credentialFetcherGet {Fn Cfg ICfg : Type} (f : CredentialFetcher)
    (s : RuntimeState Fn Cfg ICfg) : FetchOutcome :=
  if jsFalsy s.glueDeploymentId || jsFalsy s.glueAuthHeader then
    FetchOutcome.notYetReady
  else
    FetchOutcome.request (s.glueDeploymentId.getD "") f.type f.label (s.glueAuthHeader.getD "")

/-- One introspection entry, as echoed by getRegistrations. -/
structure Registration (Cfg : Type) where
  type : String
  label : String
  config : Cfg
  deriving DecidableEq

/-- The getRegistrations response shape. -/
structure Registrations (Cfg ICfg : Type) where
  triggers : List (Registration Cfg)
  accountInjections : List (Registration ICfg)
  deriving DecidableEq

/-- getRegistrations (src/runtimeSupport.ts lines 194-217): flattens both
nested maps in iteration order into (type, label, config) records. -/
def getRegistrations {Fn Cfg ICfg : Type} (s : RuntimeState Fn Cfg ICfg) :
    Registrations Cfg ICfg :=
  { triggers :=
      s.eventListenersByType.flatMap fun p =>
        p.2.map fun q => { type := p.1, label := q.1, config := q.2.config }
    accountInjections :=
      s.accountInjectionsByType.flatMap fun p =>
        p.2.map fun q => { type := p.1, label := q.1, config := q.2.config } }

/-! ## Control-plane dispatch (src/runtimeSupport.ts lines 219-279)

For dispatch the opaque handler type is instantiated with the handler's
denotation: a function from the trigger's data to the run it performs
(console emissions plus optional thrown value). -/

/-- State of a runtime whose handlers take Data and whose runs are
observable. -/
abbrev ServerState (Data Cfg ICfg : Type) :=
  RuntimeState (Data → HandlerRun) Cfg ICfg

/-- A parsed triggerEvent request body. -/
structure TriggerEvent (Data : Type) where
  type : String
  label : String
  data : Data
  deriving DecidableEq

/-- The JSON body of the triggerEvent response. -/
structure TriggerEventResponse where
  logs : List Log
  error : Option String
  deriving DecidableEq

/-- handleTrigger (src/runtimeSupport.ts lines 219-226) as the run it
performs inside the logging context: looking up the (type, label) pair
and, if absent, throwing the unknown-trigger Error before any console
output; otherwise the registered handler's own run.  unknownTimestamp and
unknownTrace supply the Date.now() value and stack trace of that Error
object, which are environment-dependent. -/
def handleTriggerRun {Data Cfg ICfg : Type} (s : ServerState Data Cfg ICfg)
    (event : TriggerEvent Data) (unknownTimestamp : Nat) (unknownTrace : Option String) :
    HandlerRun :=
  match mapGet ((mapGet s.eventListenersByType event.type).getD []) event.label with
  | none =>
    { emissions := [],
      thrown := some
        { timestamp := unknownTimestamp,
          heap := [],
          value := JsValue.err ("Unknown trigger: " ++ event.type ++ " " ++ event.label)
            unknownTrace } }
  | some eventListener => eventListener.fn event.data

/-- The POST /__glue__/triggerEvent endpoint (src/runtimeSupport.ts lines
265-275): captures the deployment-id and auth headers into process state,
then runs handleTrigger inside a fresh logging context and answers with
the collected logs and the in-band error.  The endpoint always produces a
response; handler failure is reported in the error field, not as a
transport-level failure. -/
def processTriggerEvent {Data Cfg ICfg : Type} (s : ServerState Data Cfg ICfg)
    (deploymentIdHeader authHeaderValue : Option String) (event : TriggerEvent Data)
    (unknownTimestamp : Nat) (unknownTrace : Option String) :
    ServerState Data Cfg ICfg × TriggerEventResponse :=
  let s1 := { s with glueDeploymentId := deploymentIdHeader, glueAuthHeader := authHeaderValue }
  let result := runInLoggingContext (handleTriggerRun s1 event unknownTimestamp unknownTrace)
  (s1, { logs := result.logs, error := result.error })

/-! ## Sequences of registration calls -/

/-- One registration call: either a trigger registration or an account
injection registration.  Both kinds draw automatic labels from the one
shared counter. -/
inductive RegCall (Fn Cfg ICfg : Type) where
  | trigger (eventName : String) (callback : Fn) (config : Cfg)
      (options : Option CommonTriggerOptions)
  | injection (type : String) (config : ICfg) (options : Option CommonAccountInjectionOptions)
  deriving DecidableEq

/-- The explicit label carried by a call's options, if any. -/
def RegCall.optLabel {Fn Cfg ICfg : Type} : RegCall Fn Cfg ICfg → Option String
  | .trigger _ _ _ options => triggerOptionsLabel options
  | .injection _ _ options => injectionOptionsLabel options

/-- Apply one registration call to the state. -/
def applyRegCall {Fn Cfg ICfg : Type} (c : RegCall Fn Cfg ICfg) (s : RuntimeState Fn Cfg ICfg) :
    RuntimeState Fn Cfg ICfg × Option RegError :=
  match c with
  | .trigger eventName callback config options =>
    registerEventListener eventName callback config options s
  | .injection type config options =>
    match registerAccountInjection type config options s with
    | (s1, Except.ok _) => (s1, none)
    | (s1, Except.error e) => (s1, some e)

/-- Run a sequence of registration calls.  A call that throws leaves its
partial mutations in place and the program continues with the next call,
matching module-level JS execution where each statement's mutations
persist. -/
def runCalls {Fn Cfg ICfg : Type} (calls : List (RegCall Fn Cfg ICfg))
    (s : RuntimeState Fn Cfg ICfg) : RuntimeState Fn Cfg ICfg :=
  calls.foldl (fun st c => (applyRegCall c st).1) s

/-- The (type, label) pairs of all registered triggers, in introspection
order. -/
def triggerPairs {Fn Cfg ICfg : Type} (s : RuntimeState Fn Cfg ICfg) :
    List (String × String) :=
  (getRegistrations s).triggers.map fun r => (r.type, r.label)

/-- The (type, label) pairs of all registered account injections. -/
def injectionPairs {Fn Cfg ICfg : Type} (s : RuntimeState Fn Cfg ICfg) :
    List (String × String) :=
  (getRegistrations s).accountInjections.map fun r => (r.type, r.label)

/-! ## Well-formedness of the nested registries -/

/-- A nested type-to-label map is well formed when the outer keys are
pairwise distinct and so are the labels within each type. -/
def listenersWF {β : Type} (l : List (String × List (String × β))) : Prop :=
  (l.map Prod.fst).Nodup ∧ ∀ p ∈ l, (p.2.map Prod.fst).Nodup

/-- Both registries of a runtime state are well formed. -/
def stateWF {Fn Cfg ICfg : Type} (s : RuntimeState Fn Cfg ICfg) : Prop :=
  listenersWF s.eventListenersByType ∧ listenersWF s.accountInjectionsByType

/-! ## Concrete fixtures used to evaluate the model -/

/-- A handler that logs the string "webhook callback" once and returns,
as the end-to-end test handler of mod.test.ts does. -/
def webhookHandler : Unit → HandlerRun := fun _ =>
  { emissions := [{ timestamp := 100, method := ConsoleMethod.log, heap := [],
                    args := [JsValue.str "webhook callback"] }],
    thrown := none }

/-- Runtime state after registering webhookHandler for type "webhook"
with no explicit label. -/
def webhookState : ServerState Unit Unit Unit :=
  (registerEventListener "webhook" webhookHandler () none
    (initialState (Unit → HandlerRun) Unit Unit)).1

/-- A handler that throws an Error before producing any output. -/
def throwingHandler : Unit → HandlerRun := fun _ =>
  { emissions := [],
    thrown := some { timestamp := 5, heap := [],
                     value := JsValue.err "boom" (some "Error: boom\n    at handler") } }

/-- Runtime state after registering throwingHandler for type "webhook". -/
def throwingState : ServerState Unit Unit Unit :=
  (registerEventListener "webhook" throwingHandler () none
    (initialState (Unit → HandlerRun) Unit Unit)).1

/-- Runtime state after registering a trigger of type "T" with the
explicit label "0". -/
def explicitZeroState : RuntimeState Unit Unit Unit :=
  (registerEventListener "T" () () (some { label := some "0" })
    (initialState Unit Unit Unit)).1

/-- Runtime state once the deferred init has fired (no registrations). -/
def initedState : RuntimeState Unit Unit Unit :=
  fireInit (initialState Unit Unit Unit)

/-- Runtime state after registering one account injection of type
"github" with an automatic label, before any dispatch. -/
def githubInjectionState : RuntimeState Unit Unit Unit :=
  (registerAccountInjection "github" () none (initialState Unit Unit Unit)).1

/-- The heap of the self-referencing Map of the serializer test: a Map
holding "a" to 5 and "b" to the Map itself. -/
def selfRefMapHeap : List Container :=
  [Container.jsMap [(JsValue.str "a", JsValue.num 5), (JsValue.str "b", JsValue.ref 0)]]

/-- Two interleaved label-less registration calls, one per namespace. -/
def demoAutoCalls : List (RegCall Unit Unit Unit) :=
  [RegCall.trigger "webhook" () () none, RegCall.injection "github" () none]

/-! ## Association-list facts -/

theorem mapGet_nil {β : Type} (key : String) : mapGet ([] : List (String × β)) key = none := rfl

theorem mapGet_mapSet {β : Type} (l : List (String × β)) (k key : String) (v : β) :
    mapGet (mapSet l k v) key = if k = key then some v else mapGet l key := by
  induction l with
  | nil => simp [mapGet, mapSet]
  | cons p rest ih =>
    obtain ⟨k0, v0⟩ := p
    by_cases h0 : k0 = k
    · subst h0
      simp only [mapSet, if_pos rfl, mapGet]
      by_cases h1 : k0 = key <;> simp [h1]
    · simp only [mapSet, if_neg h0, mapGet]
      by_cases h1 : k0 = key
      · subst h1
        have : ¬ k = k0 := fun h => h0 h.symm
        simp [this]
      · simp [h1, ih]

theorem mapSet_eq_append {β : Type} (l : List (String × β)) (key : String) (v : β)
    (h : mapGet l key = none) : mapSet l key v = l ++ [(key, v)] := by
  induction l with
  | nil => simp [mapSet]
  | cons p rest ih =>
    obtain ⟨k0, v0⟩ := p
    simp only [mapGet] at h
    by_cases h0 : k0 = key
    · simp [h0] at h
    · simp only [mapSet, if_neg h0, List.cons_append, List.cons.injEq, true_and]
      exact ih (by simpa [h0] using h)

theorem mapGet_eq_none_iff {β : Type} (l : List (String × β)) (key : String) :
    mapGet l key = none ↔ key ∉ l.map Prod.fst := by
  induction l with
  | nil => simp [mapGet]
  | cons p rest ih =>
    obtain ⟨k0, v0⟩ := p
    simp only [mapGet, List.map_cons, List.mem_cons]
    by_cases h0 : k0 = key
    · simp [h0]
    · simp [h0, ih, Ne.symm h0]

theorem mapGet_isSome_iff {β : Type} (l : List (String × β)) (key : String) :
    (mapGet l key).isSome = true ↔ key ∈ l.map Prod.fst := by
  rw [← Decidable.not_iff_not, ← mapGet_eq_none_iff]
  cases mapGet l key <;> simp

theorem keys_mapSet_of_isSome {β : Type} (l : List (String × β)) (key : String) (v : β)
    (h : (mapGet l key).isSome = true) :
    (mapSet l key v).map Prod.fst = l.map Prod.fst := by
  induction l with
  | nil => simp [mapGet] at h
  | cons p rest ih =>
    obtain ⟨k0, v0⟩ := p
    by_cases h0 : k0 = key
    · simp [mapSet, h0]
    · simp only [mapGet, if_neg h0] at h
      simp [mapSet, h0, ih h]

theorem mem_mapSet {β : Type} (l : List (String × β)) (key : String) (v : β)
    (p : String × β) (hp : p ∈ mapSet l key v) : p = (key, v) ∨ p ∈ l := by
  induction l with
  | nil => simpa [mapSet] using hp
  | cons q rest ih =>
    obtain ⟨k0, v0⟩ := q
    by_cases h0 : k0 = key
    · simp only [mapSet, if_pos h0, List.mem_cons] at hp
      rcases hp with h | h
      · exact Or.inl h
      · exact Or.inr (List.mem_cons_of_mem _ h)
    · simp only [mapSet, if_neg h0, List.mem_cons] at hp
      rcases hp with h | h
      · exact Or.inr (by simp [h])
      · rcases ih h with h1 | h1
        · exact Or.inl h1
        · exact Or.inr (List.mem_cons_of_mem _ h1)

theorem mapGet_mem {β : Type} (l : List (String × β)) (key : String) (v : β)
    (h : mapGet l key = some v) : (key, v) ∈ l := by
  induction l with
  | nil => simp [mapGet] at h
  | cons p rest ih =>
    obtain ⟨k0, v0⟩ := p
    simp only [mapGet] at h
    by_cases h0 : k0 = key
    · subst h0
      rw [if_pos rfl] at h
      injection h with h
      subst h
      exact List.mem_cons_self _ _
    · exact List.mem_cons_of_mem _ (ih (by simpa [h0] using h))

theorem mapSet_mapSet {β : Type} (l : List (String × β)) (key : String) (w v : β) :
    mapSet (mapSet l key w) key v = mapSet l key v := by
  induction l with
  | nil => simp [mapSet]
  | cons p rest ih =>
    obtain ⟨k0, v0⟩ := p
    by_cases h0 : k0 = key
    · simp [mapSet, h0]
    · simp [mapSet, h0, ih]

/-! ## Characterizations of the registration functions -/

theorem registerEventListener_of_inited {Fn Cfg ICfg : Type} (eventName : String)
    (callback : Fn) (config : Cfg) (options : Option CommonTriggerOptions)
    (s : RuntimeState Fn Cfg ICfg) (hI : s.hasInited = true) :
    registerEventListener eventName callback config options s =
      (s, some RegError.alreadyInitialized) := by
  simp [registerEventListener, scheduleInit, hI]

theorem registerAccountInjection_of_inited {Fn Cfg ICfg : Type} (type : String)
    (config : ICfg) (options : Option CommonAccountInjectionOptions)
    (s : RuntimeState Fn Cfg ICfg) (hI : s.hasInited = true) :
    registerAccountInjection type config options s =
      (s, Except.error RegError.alreadyInitialized) := by
  simp [registerAccountInjection, scheduleInit, hI]

theorem registerEventListener_eq {Fn Cfg ICfg : Type} (eventName : String) (callback : Fn)
    (config : Cfg) (options : Option CommonTriggerOptions) (s : RuntimeState Fn Cfg ICfg)
    (hI : s.hasInited = false) :
    registerEventListener eventName callback config options s =
      (let resolvedLabel := resolveLabel (triggerOptionsLabel options) s.nextAutomaticLabel
       let specific := (mapGet s.eventListenersByType eventName).getD []
       let counter := if (triggerOptionsLabel options).isSome then s.nextAutomaticLabel
         else s.nextAutomaticLabel + 1
       if (mapGet specific resolvedLabel).isSome then
         ({ s with hasScheduledInit := true, nextAutomaticLabel := counter },
          some (RegError.duplicateLabel resolvedLabel))
       else
         ({ s with
              hasScheduledInit := true,
              nextAutomaticLabel := counter,
              eventListenersByType := mapSet s.eventListenersByType eventName
                (mapSet specific resolvedLabel { fn := callback, config := config }) },
          none)) := by
  obtain ⟨el, ai, cnt, hsch, hin, did, ah⟩ := s
  simp only [RuntimeState.hasInited] at hI
  subst hI
  simp only [registerEventListener, scheduleInit, if_neg Bool.false_ne_true]
  by_cases hT : (mapGet el eventName).isSome
  · obtain ⟨inner, hinner⟩ := Option.isSome_iff_exists.mp hT
    by_cases hL : (triggerOptionsLabel options).isSome
    · simp [hinner, hL]
    · simp [hinner, hL]
  · rw [Option.not_isSome_iff_eq_none] at hT
    by_cases hL : (triggerOptionsLabel options).isSome
    · simp [hT, hL, mapGet_nil, mapSet_mapSet, mapSet]
    · simp [hT, hL, mapGet_nil, mapSet_mapSet, mapSet]

theorem registerAccountInjection_eq {Fn Cfg ICfg : Type} (type : String) (config : ICfg)
    (options : Option CommonAccountInjectionOptions) (s : RuntimeState Fn Cfg ICfg)
    (hI : s.hasInited = false) :
    registerAccountInjection type config options s =
      (let resolvedLabel := resolveLabel (injectionOptionsLabel options) s.nextAutomaticLabel
       let specific := (mapGet s.accountInjectionsByType type).getD []
       let counter := if (injectionOptionsLabel options).isSome then s.nextAutomaticLabel
         else s.nextAutomaticLabel + 1
       if (mapGet specific resolvedLabel).isSome then
         ({ s with hasScheduledInit := true, nextAutomaticLabel := counter },
          Except.error (RegError.duplicateLabel resolvedLabel))
       else
         ({ s with
              hasScheduledInit := true,
              nextAutomaticLabel := counter,
              accountInjectionsByType := mapSet s.accountInjectionsByType type
                (mapSet specific resolvedLabel { config := config }) },
          Except.ok { type := type, label := resolvedLabel })) := by
  obtain ⟨el, ai, cnt, hsch, hin, did, ah⟩ := s
  simp only [RuntimeState.hasInited] at hI
  subst hI
  simp only [registerAccountInjection, scheduleInit, if_neg Bool.false_ne_true]
  by_cases hT : (mapGet ai type).isSome
  · obtain ⟨inner, hinner⟩ := Option.isSome_iff_exists.mp hT
    by_cases hL : (injectionOptionsLabel options).isSome
    · simp [hinner, hL]
    · simp [hinner, hL]
  · rw [Option.not_isSome_iff_eq_none] at hT
    by_cases hL : (injectionOptionsLabel options).isSome
    · simp [hT, hL, mapGet_nil, mapSet_mapSet, mapSet]
    · simp [hT, hL, mapGet_nil, mapSet_mapSet, mapSet]

/-! ## Preservation of registry well-formedness -/

theorem listenersWF_mapSet {β : Type} (l : List (String × List (String × β)))
    (n lbl : String) (v : β) (hW : listenersWF l)
    (hfresh : mapGet ((mapGet l n).getD []) lbl = none) :
    listenersWF (mapSet l n (mapSet ((mapGet l n).getD []) lbl v)) := by
  cases hn : mapGet l n with
  | none =>
    have hrw : mapSet l n (mapSet (Option.getD none []) lbl v) = l ++ [(n, [(lbl, v)])] := by
      rw [show mapSet (Option.getD none []) lbl v = [(lbl, v)] from rfl]
      exact mapSet_eq_append l n _ hn
    rw [hrw]
    constructor
    · rw [List.map_append, List.nodup_append]
      refine ⟨hW.1, by simp, ?_⟩
      intro a ha hb
      simp only [List.map_cons, List.map_nil, List.mem_singleton] at hb
      rw [hb] at ha
      exact (mapGet_eq_none_iff l n).mp hn ha
    · intro p hp
      rcases List.mem_append.mp hp with h | h
      · exact hW.2 p h
      · simp only [List.mem_singleton] at h
        subst h
        simp
  | some inner =>
    simp only [Option.getD_some]
    rw [hn] at hfresh
    simp only [Option.getD_some] at hfresh
    constructor
    · rw [keys_mapSet_of_isSome l n _ (by simp [hn])]
      exact hW.1
    · intro p hp
      rcases mem_mapSet _ _ _ p hp with h | h
      · subst h
        have hinner : (inner.map Prod.fst).Nodup := hW.2 (n, inner) (mapGet_mem _ _ _ hn)
        rw [mapSet_eq_append inner lbl v hfresh]
        simp only [List.map_append, List.map_cons, List.map_nil]
        rw [List.nodup_append]
        refine ⟨hinner, by simp, ?_⟩
        intro a ha hb
        simp only [List.mem_singleton] at hb
        rw [hb] at ha
        exact (mapGet_eq_none_iff inner lbl).mp hfresh ha
      · exact hW.2 p h

theorem stateWF_registerEventListener {Fn Cfg ICfg : Type} (eventName : String) (callback : Fn)
    (config : Cfg) (options : Option CommonTriggerOptions) (s : RuntimeState Fn Cfg ICfg)
    (hW : stateWF s) : stateWF (registerEventListener eventName callback config options s).1 := by
  cases hI : s.hasInited with
  | true =>
    rw [registerEventListener_of_inited _ _ _ _ _ hI]
    exact hW
  | false =>
    rw [registerEventListener_eq _ _ _ _ _ hI]
    by_cases hD : (mapGet ((mapGet s.eventListenersByType eventName).getD [])
        (resolveLabel (triggerOptionsLabel options) s.nextAutomaticLabel)).isSome
    · simp only [hD, if_true]
      exact ⟨hW.1, hW.2⟩
    · rw [Option.not_isSome_iff_eq_none] at hD
      simp only [hD, Option.isSome_none, Bool.false_eq_true, if_false]
      exact ⟨listenersWF_mapSet _ _ _ _ hW.1 hD, hW.2⟩

theorem stateWF_registerAccountInjection {Fn Cfg ICfg : Type} (type : String) (config : ICfg)
    (options : Option CommonAccountInjectionOptions) (s : RuntimeState Fn Cfg ICfg)
    (hW : stateWF s) : stateWF (registerAccountInjection type config options s).1 := by
  cases hI : s.hasInited with
  | true =>
    rw [registerAccountInjection_of_inited _ _ _ _ hI]
    exact hW
  | false =>
    rw [registerAccountInjection_eq _ _ _ _ hI]
    by_cases hD : (mapGet ((mapGet s.accountInjectionsByType type).getD [])
        (resolveLabel (injectionOptionsLabel options) s.nextAutomaticLabel)).isSome
    · simp only [hD, if_true]
      exact ⟨hW.1, hW.2⟩
    · rw [Option.not_isSome_iff_eq_none] at hD
      simp only [hD, Option.isSome_none, Bool.false_eq_true, if_false]
      exact ⟨hW.1, listenersWF_mapSet _ _ _ _ hW.2 hD⟩

theorem applyRegCall_injection_fst {Fn Cfg ICfg : Type} (type : String) (config : ICfg)
    (options : Option CommonAccountInjectionOptions) (s : RuntimeState Fn Cfg ICfg) :
    (applyRegCall (RegCall.injection type config options) s).1 =
      (registerAccountInjection type config options s).1 := by
  cases h : registerAccountInjection type config options s with
  | mk s1 r => cases r <;> simp [applyRegCall, h]

theorem stateWF_applyRegCall {Fn Cfg ICfg : Type} (c : RegCall Fn Cfg ICfg)
    (s : RuntimeState Fn Cfg ICfg) (hW : stateWF s) : stateWF (applyRegCall c s).1 := by
  cases c with
  | trigger eventName callback config options =>
    exact stateWF_registerEventListener eventName callback config options s hW
  | injection type config options =>
    rw [applyRegCall_injection_fst]
    exact stateWF_registerAccountInjection type config options s hW

theorem stateWF_initialState (Fn Cfg ICfg : Type) : stateWF (initialState Fn Cfg ICfg) := by
  simp [stateWF, listenersWF, initialState]

theorem stateWF_runCalls {Fn Cfg ICfg : Type} (calls : List (RegCall Fn Cfg ICfg))
    (s : RuntimeState Fn Cfg ICfg) (hW : stateWF s) : stateWF (runCalls calls s) := by
  induction calls generalizing s with
  | nil => exact hW
  | cons c rest ih =>
    rw [show runCalls (c :: rest) s = runCalls rest (applyRegCall c s).1 from rfl]
    exact ih _ (stateWF_applyRegCall c s hW)

/-! ## From well-formedness to distinct (type, label) pairs -/

theorem pairs_nodup_of_listenersWF {β : Type} (l : List (String × List (String × β)))
    (hW : listenersWF l) :
    (l.flatMap fun p => p.2.map fun q => ((p.1, q.1) : String × String)).Nodup := by
  induction l with
  | nil => simp
  | cons p rest ih =>
    obtain ⟨n, inner⟩ := p
    obtain ⟨hkeys, hinners⟩ := hW
    simp only [List.map_cons, List.nodup_cons] at hkeys
    have hWrest : listenersWF rest :=
      ⟨hkeys.2, fun q hq => hinners q (List.mem_cons_of_mem _ hq)⟩
    simp only [List.flatMap_cons]
    rw [List.nodup_append]
    refine ⟨?_, ih hWrest, ?_⟩
    · have hinner : (inner.map Prod.fst).Nodup := hinners (n, inner) (List.mem_cons_self _ _)
      have hrw : (inner.map fun q => ((n, q.1) : String × String)) =
          (inner.map Prod.fst).map (Prod.mk n) := by
        rw [List.map_map]
        rfl
      rw [hrw]
      exact hinner.map fun a b hab => by simpa using hab
    · intro a ha hb
      simp only [List.mem_map] at ha
      obtain ⟨q, _, hq⟩ := ha
      simp only [List.mem_flatMap, List.mem_map] at hb
      obtain ⟨r, hr, w, _, hw⟩ := hb
      apply hkeys.1
      have hfst : n = r.1 := by
        rw [← hw] at hq
        simpa using congrArg Prod.fst hq
      rw [hfst]
      exact List.mem_map_of_mem Prod.fst hr

/-! ## Frame facts about single registration calls -/

theorem runCalls_cons {Fn Cfg ICfg : Type} (c : RegCall Fn Cfg ICfg)
    (rest : List (RegCall Fn Cfg ICfg)) (s : RuntimeState Fn Cfg ICfg) :
    runCalls (c :: rest) s = runCalls rest (applyRegCall c s).1 := rfl

theorem registerEventListener_hasInited {Fn Cfg ICfg : Type} (eventName : String)
    (callback : Fn) (config : Cfg) (options : Option CommonTriggerOptions)
    (s : RuntimeState Fn Cfg ICfg) :
    (registerEventListener eventName callback config options s).1.hasInited = s.hasInited := by
  cases hI : s.hasInited with
  | true =>
    rw [registerEventListener_of_inited _ _ _ _ _ hI]
    exact hI
  | false =>
    rw [registerEventListener_eq _ _ _ _ _ hI]
    by_cases hD : (mapGet ((mapGet s.eventListenersByType eventName).getD [])
        (resolveLabel (triggerOptionsLabel options) s.nextAutomaticLabel)).isSome = true
    · simp [hD]
      exact hI
    · simp [hD]
      exact hI

theorem registerAccountInjection_hasInited {Fn Cfg ICfg : Type} (type : String)
    (config : ICfg) (options : Option CommonAccountInjectionOptions)
    (s : RuntimeState Fn Cfg ICfg) :
    (registerAccountInjection type config options s).1.hasInited = s.hasInited := by
  cases hI : s.hasInited with
  | true =>
    rw [registerAccountInjection_of_inited _ _ _ _ hI]
    exact hI
  | false =>
    rw [registerAccountInjection_eq _ _ _ _ hI]
    by_cases hD : (mapGet ((mapGet s.accountInjectionsByType type).getD [])
        (resolveLabel (injectionOptionsLabel options) s.nextAutomaticLabel)).isSome = true
    · simp [hD]
      exact hI
    · simp [hD]
      exact hI

theorem registerEventListener_counter_explicit {Fn Cfg ICfg : Type} (eventName : String)
    (callback : Fn) (config : Cfg) (options : Option CommonTriggerOptions)
    (s : RuntimeState Fn Cfg ICfg) (hL : (triggerOptionsLabel options).isSome = true) :
    (registerEventListener eventName callback config options s).1.nextAutomaticLabel =
      s.nextAutomaticLabel := by
  cases hI : s.hasInited with
  | true => rw [registerEventListener_of_inited _ _ _ _ _ hI]
  | false =>
    rw [registerEventListener_eq _ _ _ _ _ hI]
    simp only [hL, if_true]
    split <;> rfl

theorem registerAccountInjection_counter_explicit {Fn Cfg ICfg : Type} (type : String)
    (config : ICfg) (options : Option CommonAccountInjectionOptions)
    (s : RuntimeState Fn Cfg ICfg) (hL : (injectionOptionsLabel options).isSome = true) :
    (registerAccountInjection type config options s).1.nextAutomaticLabel =
      s.nextAutomaticLabel := by
  cases hI : s.hasInited with
  | true => rw [registerAccountInjection_of_inited _ _ _ _ hI]
  | false =>
    rw [registerAccountInjection_eq _ _ _ _ hI]
    simp only [hL, if_true]
    split <;> rfl

theorem registerEventListener_counter_auto {Fn Cfg ICfg : Type} (eventName : String)
    (callback : Fn) (config : Cfg) (options : Option CommonTriggerOptions)
    (s : RuntimeState Fn Cfg ICfg) (hL : triggerOptionsLabel options = none)
    (hI : s.hasInited = false) :
    (registerEventListener eventName callback config options s).1.nextAutomaticLabel =
      s.nextAutomaticLabel + 1 := by
  rw [registerEventListener_eq _ _ _ _ _ hI]
  simp only [hL, Option.isSome_none, Bool.false_eq_true, if_false]
  split <;> rfl

theorem registerAccountInjection_counter_auto {Fn Cfg ICfg : Type} (type : String)
    (config : ICfg) (options : Option CommonAccountInjectionOptions)
    (s : RuntimeState Fn Cfg ICfg) (hL : injectionOptionsLabel options = none)
    (hI : s.hasInited = false) :
    (registerAccountInjection type config options s).1.nextAutomaticLabel =
      s.nextAutomaticLabel + 1 := by
  rw [registerAccountInjection_eq _ _ _ _ hI]
  simp only [hL, Option.isSome_none, Bool.false_eq_true, if_false]
  split <;> rfl

theorem registerEventListener_error_regs {Fn Cfg ICfg : Type} (eventName : String)
    (callback : Fn) (config : Cfg) (options : Option CommonTriggerOptions)
    (s : RuntimeState Fn Cfg ICfg) (e : RegError)
    (h : (registerEventListener eventName callback config options s).2 = some e) :
    getRegistrations (registerEventListener eventName callback config options s).1 =
      getRegistrations s := by
  cases hI : s.hasInited with
  | true => rw [registerEventListener_of_inited _ _ _ _ _ hI]
  | false =>
    rw [registerEventListener_eq _ _ _ _ _ hI] at h ⊢
    by_cases hD : (mapGet ((mapGet s.eventListenersByType eventName).getD [])
        (resolveLabel (triggerOptionsLabel options) s.nextAutomaticLabel)).isSome
    · simp only [hD, if_true]
      rfl
    · rw [Option.not_isSome_iff_eq_none] at hD
      simp only [hD, Option.isSome_none, Bool.false_eq_true, if_false] at h
      exact absurd h (by simp)

theorem registerAccountInjection_error_regs {Fn Cfg ICfg : Type} (type : String)
    (config : ICfg) (options : Option CommonAccountInjectionOptions)
    (s : RuntimeState Fn Cfg ICfg) (e : RegError)
    (h : (registerAccountInjection type config options s).2 = Except.error e) :
    getRegistrations (registerAccountInjection type config options s).1 =
      getRegistrations s := by
  cases hI : s.hasInited with
  | true => rw [registerAccountInjection_of_inited _ _ _ _ hI]
  | false =>
    rw [registerAccountInjection_eq _ _ _ _ hI] at h ⊢
    by_cases hD : (mapGet ((mapGet s.accountInjectionsByType type).getD [])
        (resolveLabel (injectionOptionsLabel options) s.nextAutomaticLabel)).isSome
    · simp only [hD, if_true]
      rfl
    · rw [Option.not_isSome_iff_eq_none] at hD
      simp only [hD, Option.isSome_none, Bool.false_eq_true, if_false] at h
      exact absurd h (by simp)

theorem registerEventListener_duplicate {Fn Cfg ICfg : Type} (eventName : String)
    (callback : Fn) (config : Cfg) (options : Option CommonTriggerOptions)
    (s : RuntimeState Fn Cfg ICfg) (hI : s.hasInited = false)
    (hD : (mapGet ((mapGet s.eventListenersByType eventName).getD [])
      (resolveLabel (triggerOptionsLabel options) s.nextAutomaticLabel)).isSome = true) :
    (registerEventListener eventName callback config options s).2 =
      some (RegError.duplicateLabel
        (resolveLabel (triggerOptionsLabel options) s.nextAutomaticLabel)) := by
  rw [registerEventListener_eq _ _ _ _ _ hI]
  simp only [hD, if_true]

theorem applyRegCall_hasInited {Fn Cfg ICfg : Type} (c : RegCall Fn Cfg ICfg)
    (s : RuntimeState Fn Cfg ICfg) : (applyRegCall c s).1.hasInited = s.hasInited := by
  cases c with
  | trigger eventName callback config options =>
    exact registerEventListener_hasInited eventName callback config options s
  | injection type config options =>
    rw [applyRegCall_injection_fst]
    exact registerAccountInjection_hasInited type config options s

theorem applyRegCall_counter_auto {Fn Cfg ICfg : Type} (c : RegCall Fn Cfg ICfg)
    (s : RuntimeState Fn Cfg ICfg) (hc : RegCall.optLabel c = none)
    (hI : s.hasInited = false) :
    (applyRegCall c s).1.nextAutomaticLabel = s.nextAutomaticLabel + 1 := by
  cases c with
  | trigger eventName callback config options =>
    exact registerEventListener_counter_auto eventName callback config options s hc hI
  | injection type config options =>
    rw [applyRegCall_injection_fst]
    exact registerAccountInjection_counter_auto type config options s hc hI

theorem runCalls_counter_auto {Fn Cfg ICfg : Type} (calls : List (RegCall Fn Cfg ICfg))
    (s : RuntimeState Fn Cfg ICfg) (hall : ∀ c ∈ calls, RegCall.optLabel c = none)
    (hI : s.hasInited = false) :
    (runCalls calls s).nextAutomaticLabel = s.nextAutomaticLabel + calls.length ∧
    (runCalls calls s).hasInited = false := by
  induction calls generalizing s with
  | nil => exact ⟨rfl, hI⟩
  | cons c rest ih =>
    have hc := hall c (List.mem_cons_self _ _)
    have hrest : ∀ x ∈ rest, RegCall.optLabel x = none :=
      fun x hx => hall x (List.mem_cons_of_mem _ hx)
    have hstepI : (applyRegCall c s).1.hasInited = false := by
      rw [applyRegCall_hasInited]
      exact hI
    obtain ⟨h1, h2⟩ := ih (applyRegCall c s).1 hrest hstepI
    have hstep := runCalls_cons c rest s
    constructor
    · rw [hstep, h1, applyRegCall_counter_auto c s hc hI]
      simp only [List.length_cons]
      omega
    · rw [hstep]
      exact h2

/-! ## Introspection pairs as flattened registries -/

theorem triggerPairs_eq {Fn Cfg ICfg : Type} (s : RuntimeState Fn Cfg ICfg) :
    triggerPairs s =
      s.eventListenersByType.flatMap fun p => p.2.map fun q => (p.1, q.1) := by
  unfold triggerPairs getRegistrations
  generalize s.eventListenersByType = l
  induction l with
  | nil => rfl
  | cons p rest ih =>
    simp only [List.flatMap_cons, List.map_append, List.map_map] at ih ⊢
    rw [ih]
    rfl

theorem injectionPairs_eq {Fn Cfg ICfg : Type} (s : RuntimeState Fn Cfg ICfg) :
    injectionPairs s =
      s.accountInjectionsByType.flatMap fun p => p.2.map fun q => (p.1, q.1) := by
  unfold injectionPairs getRegistrations
  generalize s.accountInjectionsByType = l
  induction l with
  | nil => rfl
  | cons p rest ih =>
    simp only [List.flatMap_cons, List.map_append, List.map_map] at ih ⊢
    rw [ih]
    rfl

/-! ## Claim theorems -/

/-- C1: over any sequence of registration calls run from the initial
state, the registry never holds two entries with the same (type, label)
pair, in either namespace and whether labels were explicit or automatic;
and a registerEventListener call whose resolved label is already present
for its type fails with the duplicate-label error and leaves the
observable registration set unchanged instead of registering. -/
theorem c1_registry_label_uniqueness :
    ∀ (Fn Cfg ICfg : Type) (calls : List (RegCall Fn Cfg ICfg))
      (s : RuntimeState Fn Cfg ICfg) (eventName : String) (callback : Fn) (config : Cfg)
      (options : Option CommonTriggerOptions),
      (triggerPairs (runCalls calls (initialState Fn Cfg ICfg))).Nodup ∧
      (injectionPairs (runCalls calls (initialState Fn Cfg ICfg))).Nodup ∧
      (s.hasInited = false →
        (mapGet ((mapGet s.eventListenersByType eventName).getD [])
          (resolveLabel (triggerOptionsLabel options) s.nextAutomaticLabel)).isSome = true →
        (registerEventListener eventName callback config options s).2 =
          some (RegError.duplicateLabel
            (resolveLabel (triggerOptionsLabel options) s.nextAutomaticLabel)) ∧
        getRegistrations (registerEventListener eventName callback config options s).1 =
          getRegistrations s) := by
  intro Fn Cfg ICfg calls s eventName callback config options
  have hwf := stateWF_runCalls calls (initialState Fn Cfg ICfg) (stateWF_initialState Fn Cfg ICfg)
  refine ⟨?_, ?_, ?_⟩
  · rw [triggerPairs_eq]
    exact pairs_nodup_of_listenersWF _ hwf.1
  · rw [injectionPairs_eq]
    exact pairs_nodup_of_listenersWF _ hwf.2
  · intro hI hD
    refine ⟨registerEventListener_duplicate eventName callback config options s hI hD, ?_⟩
    exact registerEventListener_error_regs eventName callback config options s _
      (registerEventListener_duplicate eventName callback config options s hI hD)

theorem c1_registry_label_uniqueness_witness :
    (triggerPairs (runCalls demoAutoCalls (initialState Unit Unit Unit))).Nodup ∧
    (injectionPairs (runCalls demoAutoCalls (initialState Unit Unit Unit))).Nodup ∧
    ((registerEventListener "T" () () none explicitZeroState).2 =
      some (RegError.duplicateLabel "0") ∧
     getRegistrations (registerEventListener "T" () () none explicitZeroState).1 =
      getRegistrations explicitZeroState) := by
  obtain ⟨h1, h2, h3⟩ :=
    c1_registry_label_uniqueness Unit Unit Unit demoAutoCalls explicitZeroState "T" () () none
  exact ⟨h1, h2, h3 (by decide) (by decide)⟩

/-- C2: for any interleaved sequence of trigger and credential
registration calls carrying no explicit label, run from the initial
state, the call with index i resolves its automatic label to the
stringified integer i — so the labels are "0", "1", "2", ... strictly
in call order, drawn from the one counter both namespaces share — and
the counter afterwards equals the number of calls. -/
theorem c2_shared_automatic_label_counter :
    ∀ (Fn Cfg ICfg : Type) (calls : List (RegCall Fn Cfg ICfg)),
      (∀ c ∈ calls, RegCall.optLabel c = none) →
      ((runCalls calls (initialState Fn Cfg ICfg)).nextAutomaticLabel = calls.length ∧
       ∀ (i : Nat) (hi : i < calls.length),
         resolveLabel (RegCall.optLabel calls[i])
           ((runCalls (calls.take i) (initialState Fn Cfg ICfg)).nextAutomaticLabel) =
           toString i) := by
  intro Fn Cfg ICfg calls hall
  constructor
  · have h := (runCalls_counter_auto calls (initialState Fn Cfg ICfg) hall rfl).1
    simpa [initialState] using h
  · intro i hi
    have hopt : RegCall.optLabel calls[i] = none := hall _ (List.getElem_mem hi)
    have htake : ∀ c ∈ calls.take i, RegCall.optLabel c = none :=
      fun c hc => hall c (List.take_subset i calls hc)
    have hcnt := (runCalls_counter_auto (calls.take i) (initialState Fn Cfg ICfg) htake rfl).1
    rw [hopt]
    simp only [resolveLabel, Option.getD_none]
    rw [hcnt]
    simp [initialState, List.length_take, Nat.min_eq_left (Nat.le_of_lt hi)]

theorem c2_shared_automatic_label_counter_witness :
    (runCalls demoAutoCalls (initialState Unit Unit Unit)).nextAutomaticLabel = 2 ∧
    resolveLabel (RegCall.optLabel demoAutoCalls[0])
      ((runCalls (demoAutoCalls.take 0) (initialState Unit Unit Unit)).nextAutomaticLabel) =
      "0" ∧
    resolveLabel (RegCall.optLabel demoAutoCalls[1])
      ((runCalls (demoAutoCalls.take 1) (initialState Unit Unit Unit)).nextAutomaticLabel) =
      "1" := by
  obtain ⟨h1, h2⟩ :=
    c2_shared_automatic_label_counter Unit Unit Unit demoAutoCalls (by decide)
  exact ⟨h1, h2 0 (by decide), h2 1 (by decide)⟩

/-- C3: once the deferred initialization has fired (which is the case by
the time any dispatch request is served, since the server only starts
inside that microtask), every registerEventListener and
registerAccountInjection call fails with the already-initialized error
and returns the state completely unchanged: the init state machine does
not transition. -/
theorem c3_post_init_registration_rejected :
    ∀ (Fn Cfg ICfg : Type) (s : RuntimeState Fn Cfg ICfg) (eventName : String) (callback : Fn)
      (config : Cfg) (options : Option CommonTriggerOptions) (injType : String) (icfg : ICfg)
      (ioptions : Option CommonAccountInjectionOptions),
      (fireInit s).hasInited = true ∧
      (s.hasInited = true →
        registerEventListener eventName callback config options s =
          (s, some RegError.alreadyInitialized) ∧
        registerAccountInjection injType icfg ioptions s =
          (s, Except.error RegError.alreadyInitialized)) := by
  intro Fn Cfg ICfg s eventName callback config options injType icfg ioptions
  refine ⟨rfl, fun hI => ⟨?_, ?_⟩⟩
  · exact registerEventListener_of_inited eventName callback config options s hI
  · exact registerAccountInjection_of_inited injType icfg ioptions s hI

theorem c3_post_init_registration_rejected_witness :
    (fireInit initedState).hasInited = true ∧
    (registerEventListener "webhook" () () none initedState =
      (initedState, some RegError.alreadyInitialized) ∧
     registerAccountInjection "github" () none initedState =
      (initedState, Except.error RegError.alreadyInitialized)) := by
  obtain ⟨h1, h2⟩ :=
    c3_post_init_registration_rejected Unit Unit Unit initedState "webhook" () () none
      "github" () none
  exact ⟨h1, h2 rfl⟩

/-- C4: when the handler a triggerEvent request dispatches to throws or
rejects, the endpoint still produces a response (the failure is in-band,
not a transport failure): the error field is exactly the serialization of
the thrown value and the returned logs are the handler's captured output
followed by the appended stderr entry recording that same value. -/
theorem c4_handler_error_reported_in_band :
    ∀ (Data Cfg ICfg : Type) (s : ServerState Data Cfg ICfg) (did ah : Option String)
      (event : TriggerEvent Data) (uts : Nat) (utr : Option String)
      (listener : RegisteredEvent (Data → HandlerRun) Cfg) (t : Thrown),
      mapGet ((mapGet s.eventListenersByType event.type).getD []) event.label =
        some listener →
      (listener.fn event.data).thrown = some t →
      (processTriggerEvent s did ah event uts utr).2.error =
        some (serializeConsoleArgumentsToString t.heap [t.value]) ∧
      (processTriggerEvent s did ah event uts utr).2.logs =
        (listener.fn event.data).emissions.map logOfConsoleEvent ++
          [{ timestamp := t.timestamp, type := LogType.stderr,
             text := serializeConsoleArgumentsToString t.heap [t.value] ++ "\n" }] := by
  intro Data Cfg ICfg s did ah event uts utr listener t hlook hthrown
  constructor
  · simp [processTriggerEvent, handleTriggerRun, runInLoggingContext, hlook, hthrown]
  · simp [processTriggerEvent, handleTriggerRun, runInLoggingContext, hlook, hthrown]

theorem c4_handler_error_reported_in_band_witness :
    (processTriggerEvent throwingState (some "dep") (some "auth")
      { type := "webhook", label := "0", data := () } 7 none).2.error =
      some (serializeConsoleArgumentsToString []
        [JsValue.err "boom" (some "Error: boom\n    at handler")]) ∧
    (processTriggerEvent throwingState (some "dep") (some "auth")
      { type := "webhook", label := "0", data := () } 7 none).2.logs =
      (throwingHandler ()).emissions.map logOfConsoleEvent ++
        [{ timestamp := 5, type := LogType.stderr,
           text := serializeConsoleArgumentsToString []
             [JsValue.err "boom" (some "Error: boom\n    at handler")] ++ "\n" }] := by
  exact c4_handler_error_reported_in_band Unit Unit Unit throwingState (some "dep")
    (some "auth") { type := "webhook", label := "0", data := () } 7 none
    { fn := throwingHandler, config := () }
    { timestamp := 5, heap := [],
      value := JsValue.err "boom" (some "Error: boom\n    at handler") }
    (by decide) (by decide)

/-- C5: evaluating the embedded code on the end-to-end scenario — the
dispatched handler calls console.log with the single argument
"webhook callback" — yields one captured entry tagged stdout whose text
is "webhook callback" followed by TWO newlines, not the single trailing
newline the specification and the repository's own tests
(src/mod.test.ts, the serialization tests) require: the serializer
already appends a newline at src/logging/serialization.ts line 61 and the
patched console appends a second one at src/logging.ts line 33. -/
theorem c5_webhook_log_text_double_newline :
    (processTriggerEvent webhookState (some "dep") (some "auth")
      { type := "webhook", label := "0", data := () } 7 none).2 =
      { logs := [{ timestamp := 100, type := LogType.stdout,
                   text := "webhook callback\n\n" }],
        error := none } ∧
    ("webhook callback\n\n" : String) ≠ "webhook callback\n" := by
  exact ⟨by decide, by decide⟩

/-- C6 counterexample: dispatching against the empty registry does NOT
leave the logs array empty, contrary to the claim: the logging context
catches the unknown-trigger error and logs it, so the returned logs hold
exactly that stderr entry. -/
theorem c6_unknown_trigger_counterexample :
    (processTriggerEvent (initialState (Unit → HandlerRun) Unit Unit) (some "dep")
      (some "auth") { type := "nope", label := "0", data := () } 7 none).2.logs ≠ [] := by
  decide

/-- C6 (amended): dispatching a (type, label) pair with no matching
registration fails that single request in-band with the unknown-trigger
error: the response's error field holds its serialization and the logs
array holds exactly one entry — the stderr record of that error — rather
than no entries. -/
theorem c6_unknown_trigger_amended :
    ∀ (Data Cfg ICfg : Type) (s : ServerState Data Cfg ICfg) (did ah : Option String)
      (event : TriggerEvent Data) (uts : Nat) (utr : Option String),
      mapGet ((mapGet s.eventListenersByType event.type).getD []) event.label = none →
      (processTriggerEvent s did ah event uts utr).2 =
        { logs := [{ timestamp := uts, type := LogType.stderr,
                     text := serializeConsoleArgumentsToString []
                       [JsValue.err ("Unknown trigger: " ++ event.type ++ " " ++ event.label)
                         utr] ++ "\n" }],
          error := some (serializeConsoleArgumentsToString []
            [JsValue.err ("Unknown trigger: " ++ event.type ++ " " ++ event.label) utr]) } := by
  intro Data Cfg ICfg s did ah event uts utr hlook
  simp [processTriggerEvent, handleTriggerRun, runInLoggingContext, hlook]

theorem c6_unknown_trigger_amended_witness :
    (processTriggerEvent (initialState (Unit → HandlerRun) Unit Unit) (some "dep")
      (some "auth") { type := "nope", label := "0", data := () } 7 none).2 =
      { logs := [{ timestamp := 7, type := LogType.stderr,
                   text := serializeConsoleArgumentsToString []
                     [JsValue.err "Unknown trigger: nope 0" none] ++ "\n" }],
        error := some (serializeConsoleArgumentsToString []
          [JsValue.err "Unknown trigger: nope 0" none]) } := by
  exact c6_unknown_trigger_amended Unit Unit Unit (initialState (Unit → HandlerRun) Unit Unit)
    (some "dep") (some "auth") { type := "nope", label := "0", data := () } 7 none (by decide)

/-- C7: a container reached while its address is already on the shared
cycle-detection stack serializes to the fixed circular-reference marker
instead of being recursed into; in particular the self-referential Map
with entries "a" to 5 and "b" to itself serializes to exactly
Map(2) with "a" => 5 and "b" => [Circular reference]. -/
theorem c7_circular_reference_marker :
    (∀ (h : List Container) (fuel addr : Nat) (stack : List Nat), addr ∈ stack →
      serializeValueFuel h (fuel + 1) (JsValue.ref addr) stack = "[Circular reference]") ∧
    serializeValue selfRefMapHeap (JsValue.ref 0) =
      "Map(2) \x7b \"a\" => 5, \"b\" => [Circular reference] \x7d" := by
  constructor
  · intro h fuel addr stack hmem
    simp [serializeValueFuel, hmem]
  · decide

theorem c7_circular_reference_marker_witness :
    serializeValueFuel [] 1 (JsValue.ref 0) [0] = "[Circular reference]" ∧
    serializeValue selfRefMapHeap (JsValue.ref 0) =
      "Map(2) \x7b \"a\" => 5, \"b\" => [Circular reference] \x7d" :=
  ⟨c7_circular_reference_marker.1 [] 0 0 [0] (by decide), c7_circular_reference_marker.2⟩

/-- C8: calling get() on a credential fetcher returned by a successful
registerAccountInjection, in a state where no dispatch has yet captured a
deployment id or auth header, rejects with the not-yet-ready error and
performs no outbound fetch. -/
theorem c8_credential_get_before_dispatch :
    ∀ (Fn Cfg ICfg : Type) (injType : String) (config : ICfg)
      (options : Option CommonAccountInjectionOptions) (s s2 : RuntimeState Fn Cfg ICfg)
      (f : CredentialFetcher),
      (registerAccountInjection injType config options s).2 = Except.ok f →
      s2.glueDeploymentId = none →
      s2.glueAuthHeader = none →
      credentialFetcherGet f s2 = FetchOutcome.notYetReady := by
  intro Fn Cfg ICfg injType config options s s2 f hreg hdid hah
  simp [credentialFetcherGet, jsFalsy, hdid]

theorem c8_credential_get_before_dispatch_witness :
    credentialFetcherGet { type := "github", label := "0" } githubInjectionState =
      FetchOutcome.notYetReady := by
  exact c8_credential_get_before_dispatch Unit Unit Unit "github" () none
    (initialState Unit Unit Unit) githubInjectionState { type := "github", label := "0" }
    rfl rfl rfl

/-- C9: a registration call that supplies an explicit label leaves the
automatic-label counter unchanged, in both namespaces; consequently
registering a trigger of type T with explicit label "0" and then a
label-less trigger of the same type resolves the second call to the
already-taken "0" and fails with the duplicate-label error. -/
theorem c9_explicit_label_keeps_counter :
    (∀ (Fn Cfg ICfg : Type) (eventName : String) (callback : Fn) (config : Cfg)
       (options : Option CommonTriggerOptions) (s : RuntimeState Fn Cfg ICfg),
       (triggerOptionsLabel options).isSome = true →
       (registerEventListener eventName callback config options s).1.nextAutomaticLabel =
         s.nextAutomaticLabel) ∧
    (∀ (Fn Cfg ICfg : Type) (injType : String) (config : ICfg)
       (options : Option CommonAccountInjectionOptions) (s : RuntimeState Fn Cfg ICfg),
       (injectionOptionsLabel options).isSome = true →
       (registerAccountInjection injType config options s).1.nextAutomaticLabel =
         s.nextAutomaticLabel) ∧
    (registerEventListener "T" () () none explicitZeroState).2 =
      some (RegError.duplicateLabel "0") := by
  refine ⟨?_, ?_, by decide⟩
  · intro Fn Cfg ICfg eventName callback config options s hL
    exact registerEventListener_counter_explicit eventName callback config options s hL
  · intro Fn Cfg ICfg injType config options s hL
    exact registerAccountInjection_counter_explicit injType config options s hL

theorem c9_explicit_label_keeps_counter_witness :
    (registerEventListener "E" () () (some { label := some "x" })
      (initialState Unit Unit Unit)).1.nextAutomaticLabel = 0 ∧
    (registerAccountInjection "I" () (some { label := some "y" })
      (initialState Unit Unit Unit)).1.nextAutomaticLabel = 0 ∧
    (registerEventListener "T" () () none explicitZeroState).2 =
      some (RegError.duplicateLabel "0") := by
  refine ⟨?_, ?_, c9_explicit_label_keeps_counter.2.2⟩
  · exact c9_explicit_label_keeps_counter.1 Unit Unit Unit "E" () ()
      (some { label := some "x" }) (initialState Unit Unit Unit) (by decide)
  · exact c9_explicit_label_keeps_counter.2.1 Unit Unit Unit "I" ()
      (some { label := some "y" }) (initialState Unit Unit Unit) (by decide)

/-- C10: any registration call that throws — duplicate label or
post-init — leaves the observable registration set unchanged:
getRegistrations returns exactly the same triggers and accountInjections
before and after the failed call. -/
theorem c10_failed_registration_keeps_registrations :
    ∀ (Fn Cfg ICfg : Type) (s : RuntimeState Fn Cfg ICfg) (eventName : String) (callback : Fn)
      (config : Cfg) (options : Option CommonTriggerOptions) (injType : String) (icfg : ICfg)
      (ioptions : Option CommonAccountInjectionOptions) (e e2 : RegError),
      ((registerEventListener eventName callback config options s).2 = some e →
        getRegistrations (registerEventListener eventName callback config options s).1 =
          getRegistrations s) ∧
      ((registerAccountInjection injType icfg ioptions s).2 = Except.error e2 →
        getRegistrations (registerAccountInjection injType icfg ioptions s).1 =
          getRegistrations s) := by
  intro Fn Cfg ICfg s eventName callback config options injType icfg ioptions e e2
  constructor
  · intro h
    exact registerEventListener_error_regs eventName callback config options s e h
  · intro h
    exact registerAccountInjection_error_regs injType icfg ioptions s e2 h

theorem c10_failed_registration_keeps_registrations_witness :
    getRegistrations (registerEventListener "a" () () none initedState).1 =
      getRegistrations initedState ∧
    getRegistrations (registerAccountInjection "b" () none initedState).1 =
      getRegistrations initedState := by
  obtain ⟨h1, h2⟩ :=
    c10_failed_registration_keeps_registrations Unit Unit Unit initedState "a" () () none
      "b" () none RegError.alreadyInitialized RegError.alreadyInitialized
  exact ⟨h1 rfl, h2 rfl⟩

end GlueRuntime
